import Mathlib

/-!
Shallow embedding of the query-safety, sanitization, session-store, schema-cache
and executor layers of the VoxDB (OptiVoxDB) backend, together with theorems
settling the specification claims about them.

Python strings are modelled as Lean `String` / `List Char`; Python's
`IndexError`-raising partial operations are modelled with `Option`; raised
exceptions are modelled with explicit error sum types.
-/

set_option autoImplicit false

namespace VoxDB

/-- Python whitespace characters (the set recognised by `str.strip()` /
`str.split()` / `str.isspace()`): ASCII whitespace, the information
separators, NEL, NBSP and the Unicode space code points. -/
def pyIsSpace (c : Char) : Bool :=
  c.toNat ∈ [9, 10, 11, 12, 13, 28, 29, 30, 31, 32, 133, 160, 0x1680,
    0x2000, 0x2001, 0x2002, 0x2003, 0x2004, 0x2005, 0x2006, 0x2007,
    0x2008, 0x2009, 0x200A, 0x2028, 0x2029, 0x202F, 0x205F, 0x3000]

/-- Drop leading Python-whitespace. -/
def dropLeadingSpace (l : List Char) : List Char := l.dropWhile pyIsSpace

/-- Python `str.strip()`: remove whitespace from both ends. -/
def pyStrip (l : List Char) : List Char :=
  ((dropLeadingSpace l).reverse.dropWhile pyIsSpace).reverse

/-- Python `str.lower()` (ASCII case folding, which is all the SQL keyword
logic relies on). -/
def pyLower (l : List Char) : List Char := l.map Char.toLower

/-- First whitespace-separated token of `sql.strip().lower()`, i.e. the value
of Python `sql.strip().lower().split()[0]`; `none` models the `IndexError`
raised when the string contains no non-whitespace character. -/
def pyFirstWord (s : String) : Option String :=
  let t := dropLeadingSpace (pyLower (pyStrip s.data))
  match t with
  | [] => none
  | _ => some (String.mk (t.takeWhile (fun c => !pyIsSpace c)))

/-- SQL query types (source: `utils/validation.py`, `class QueryType`). -/
inductive QueryType where
  | READ
  | WRITE
  | DDL
  | DCL
deriving DecidableEq

/-- Source: `READ_KEYWORDS` in `utils/validation.py`. -/
def READ_KEYWORDS : List String := ["select", "show", "describe", "explain", "desc"]

/-- Source: `DML_KEYWORDS` in `utils/validation.py`. -/
def DML_KEYWORDS : List String := ["insert", "update", "delete", "replace"]

/-- Source: `DDL_KEYWORDS` in `utils/validation.py`. -/
def DDL_KEYWORDS : List String := ["create", "alter", "drop", "truncate", "rename"]

/-- Source: `DCL_KEYWORDS` in `utils/validation.py`. -/
def DCL_KEYWORDS : List String := ["grant", "revoke"]

/-- Source: `DESTRUCTIVE_KEYWORDS` in `utils/validation.py`. -/
def DESTRUCTIVE_KEYWORDS : List String := ["drop", "truncate", "delete"]

/-- Source: `classify_query_type` in `utils/validation.py`.  Classifies by the
first keyword of `sql.strip().lower().split()`; `none` models the
`IndexError` raised by `split()[0]` on an empty or all-whitespace string. -/
def classify_query_type (sql : String) : Option QueryType :=
  match pyFirstWord sql with
  | none => none
  | some w =>
    if w ∈ DDL_KEYWORDS then some .DDL
    else if w ∈ DML_KEYWORDS then some .WRITE
    else if w ∈ READ_KEYWORDS then some .READ
    else if w ∈ DCL_KEYWORDS then some .DCL
    else some .READ

/-- Source: `is_destructive_query` in `utils/validation.py`; `none` models the
`IndexError` on a wordless string. -/
def is_destructive_query (sql : String) : Option Bool :=
  match pyFirstWord sql with
  | none => none
  | some w => some (w ∈ DESTRUCTIVE_KEYWORDS)

/-- The specification's classifier, written from the spec's words: the first
keyword is matched case-insensitively against the four fixed keyword sets
(which are pairwise disjoint), and an unrecognized leading keyword defaults
to READ.  Used to compare the source classifier against the spec. -/
def classifyKeywordSpec (w : String) : QueryType :=
  if w ∈ READ_KEYWORDS then .READ
  else if w ∈ DML_KEYWORDS then .WRITE
  else if w ∈ DDL_KEYWORDS then .DDL
  else if w ∈ DCL_KEYWORDS then .DCL
  else .READ

/-! ### Safety checker (`is_safe_query`) -/

/-- Python regex `\w` (word character), restricted to ASCII as in the SQL
keywords the checker looks for. -/
def isWordChar (c : Char) : Bool := c.isAlphanum || c = '_'

/-- Python `count` of a single character. -/
def pyCount (c : Char) (l : List Char) : Nat := l.count c

/-- Python `pat in s` substring test. -/
def containsSub (l pat : List Char) : Bool :=
  (List.range (l.length + 1)).any fun i => (l.drop i).take pat.length == pat

/-- `\b w \b` matches at position `i` of `l`: the characters of `w` occur at
`i` and both ends sit on a word boundary. -/
def occursWordAt (l w : List Char) (i : Nat) : Bool :=
  ((l.drop i).take w.length == w) &&
  (i == 0 || !isWordChar (l.getD (i - 1) ' ')) &&
  !isWordChar (l.getD (i + w.length) ' ')

/-- `re.search(r'\b w \b', l)` succeeds somewhere in `l`. -/
def hasWordToken (l w : List Char) : Bool :=
  (List.range (l.length + 1)).any fun i => occursWordAt l w i

/-- `re.search(r'\bunion\b.*\bselect\b', l)`: a word-bounded `union`, then a
word-bounded `select` further right, with no newline in between (Python `.`
does not match a newline). -/
def unionSelectMatch (l : List Char) : Bool :=
  (List.range (l.length + 1)).any fun i =>
    occursWordAt l ("union".data) i &&
    ((List.range (l.length + 1)).any fun j =>
      decide (i + 5 ≤ j) && occursWordAt l ("select".data) j &&
      !(((l.drop (i + 5)).take (j - (i + 5))).contains '\n'))

/-- `re.search(r'\b(sleep|benchmark|waitfor)\b', l)`. -/
def timingAttackMatch (l : List Char) : Bool :=
  hasWordToken l ("sleep".data) || hasWordToken l ("benchmark".data) ||
    hasWordToken l ("waitfor".data)

/-- Source: `is_safe_query` in `utils/validation.py`.  Returns
`(is_safe, reason)`.  The semicolon count and the regex checks run on
`sql.lower().strip()`; the comment-marker membership tests run on the raw
`sql`, exactly as in the source. -/
def is_safe_query (sql : String) : Bool × String :=
  let sl := pyStrip (pyLower sql.data)
  if pyCount ';' sl > 1 then
    (false, "Multiple statements detected - potential SQL injection")
  else if containsSub sql.data ("--".data) || containsSub sql.data ("/*".data) ||
      containsSub sql.data ("*/".data) then
    (false, "SQL comments detected - potential injection attempt")
  else if unionSelectMatch sl then
    (false, "UNION SELECT detected - potential injection")
  else if timingAttackMatch sl then
    (false, "Timing attack functions detected")
  else if containsSub sl ("information_schema".data) then
    (true, "Information schema access detected (allowed with warning)")
  else
    (true, "Query appears safe")

/-! ### Safety enforcement (`validate_query_safety`) and the natural-language
query gate (`QueryService.process_natural_query`) -/

/-- The exceptions `validate_query_safety` can raise: `queryBlocked` models
`UnsafeQueryError(message, reason, sql)` from `utils/exceptions.py`;
`indexErr` models the `IndexError` escaping from
`is_destructive_query(sql)` when `sql` has no leading word. -/
inductive ValidationError where
  | queryBlocked (message reason sql : String)
  | indexErr
deriving DecidableEq

/-- Source: `validate_query_safety` in `utils/validation.py`: raise if
`is_safe_query` rejects, then raise if the query is destructive and
`allow_destructive` is not set. -/
def validate_query_safety (sql : String) (allow_destructive : Bool) :
    Except ValidationError Unit :=
  match is_safe_query sql with
  | (false, reason) =>
    .error (.queryBlocked ("Query blocked for safety: " ++ reason) reason sql)
  | (true, _) =>
    match is_destructive_query sql with
    | none => .error .indexErr
    | some d =>
      if d && !allow_destructive then
        .error (.queryBlocked "Destructive operation blocked"
          "Destructive query not allowed" sql)
      else
        .ok ()

/-- Python `str(e)` of a raised exception, as caught by the
`except Exception` handler in `process_natural_query`. -/
def errMessage : ValidationError → String
  | .queryBlocked m _ _ => m
  | .indexErr => "list index out of range"

/-- Result of `QueryService.process_natural_query`, with the database
execution abstracted: `executes` counts calls made to
`execute_query_safe` (the claims need only zero-vs-nonzero). -/
structure NLQResult where
  blocked : Bool
  message : String
  sql : String
  success : Bool
  executes : Nat
deriving DecidableEq

/-- Source: `QueryService.process_natural_query` in
`services/query_service.py`, from the point where the generated SQL `sql`
is in hand: validate safety (any exception is caught and turned into a
blocked result), then apply the destructive/confirm double gate, then
execute.  The executed branch's payload (`{**result, "sql": sql}`) is
abstracted to `executes = 1`; blocked results carry no execution. -/
def process_natural_query (sql : String) (allow_destructive confirm : Bool) :
    NLQResult :=
  match validate_query_safety sql allow_destructive with
  | .error e =>
    { blocked := true, message := errMessage e, sql := sql,
      success := false, executes := 0 }
  | .ok _ =>
    match is_destructive_query sql with
    | some true =>
      if !allow_destructive then
        { blocked := true,
          message := "Destructive operation blocked. Set allow_destructive=true to proceed.",
          sql := sql, success := false, executes := 0 }
      else if !confirm then
        { blocked := true,
          message := "Confirmation required for destructive operation. Set confirm=true.",
          sql := sql, success := false, executes := 0 }
      else
        { blocked := false, message := "", sql := sql,
          success := true, executes := 1 }
    | _ =>
      { blocked := false, message := "", sql := sql,
        success := true, executes := 1 }

/-! ### SQL sanitizer (`sanitize_sql`) -/

/-- The backtick character. -/
def backtick : Char := Char.ofNat 96

/-- Worker for the `re.sub(r'```[a-zA-Z]*', '', sql)` pass, structurally
recursive on a fuel argument (initial fuel `l.length` always suffices:
every step consumes one unit of fuel and at least one character). -/
def subFenceTagGo : Nat → List Char → List Char
  | fuel + 1, c1 :: c2 :: c3 :: rest =>
    if c1 = backtick ∧ c2 = backtick ∧ c3 = backtick then
      subFenceTagGo fuel (rest.dropWhile Char.isAlpha)
    else
      c1 :: subFenceTagGo fuel (c2 :: c3 :: rest)
  | _, l => l

/-- Pass of `re.sub(r'```[a-zA-Z]*', '', sql)`: delete every occurrence of
three backticks followed by a maximal run of ASCII letters, scanning left
to right. -/
def subFenceTag (l : List Char) : List Char := subFenceTagGo l.length l

/-- The greedy `\n?` after a bare fence: drop one leading newline if present. -/
def dropOptNewline : List Char → List Char
  | '\n' :: r => r
  | l => l

/-- Worker for the `re.sub(r'```\n?', '', sql)` pass (fuel as above). -/
def subFenceBareGo : Nat → List Char → List Char
  | fuel + 1, c1 :: c2 :: c3 :: rest =>
    if c1 = backtick ∧ c2 = backtick ∧ c3 = backtick then
      subFenceBareGo fuel (dropOptNewline rest)
    else
      c1 :: subFenceBareGo fuel (c2 :: c3 :: rest)
  | _, l => l

/-- Pass of `re.sub(r'```\n?', '', sql)`: delete every occurrence of three
backticks and an optional following newline. -/
def subFenceBare (l : List Char) : List Char := subFenceBareGo l.length l

/-- Python line-break characters recognised by `str.splitlines()`. -/
def isLineBreak (c : Char) : Bool :=
  c.toNat ∈ [10, 11, 12, 13, 28, 29, 30, 133, 0x2028, 0x2029]

/-- Worker for `str.splitlines()`: `acc` is the current line, reversed. -/
def splitlinesGo : List Char → List Char → List (List Char)
  | [], acc => if acc.isEmpty then [] else [acc.reverse]
  | '\r' :: '\n' :: rest, acc => acc.reverse :: splitlinesGo rest []
  | c :: rest, acc =>
    if isLineBreak c then acc.reverse :: splitlinesGo rest []
    else splitlinesGo rest (c :: acc)

/-- Python `str.splitlines()`. -/
def pySplitlines (l : List Char) : List (List Char) := splitlinesGo l []

/-- `re.sub(r'--.*$', '', line)` on a single line: truncate at the first
`--`. -/
def cutAtDashDash : List Char → List Char
  | '-' :: '-' :: _ => []
  | c :: rest => c :: cutAtDashDash rest
  | [] => []

/-- Python `sql.split(';')[0]`: the characters before the first `;`. -/
def cutAtSemi (l : List Char) : List Char := l.takeWhile (fun c => c ≠ ';')

/-- Source: `sanitize_sql` in `utils/validation.py`, line by line: the two
fence-removing `re.sub` passes; per-line `--`-comment removal keeping only
lines that are non-blank after stripping; rejoin with newlines and strip;
then, if more than one `;` remains, keep only the first statement and
re-append `;`. -/
def sanitize_sql (s : String) : String :=
  let a := subFenceBare (subFenceTag s.data)
  let kept := ((pySplitlines a).map cutAtDashDash).filter
    (fun line => !(pyStrip line).isEmpty)
  let b := pyStrip (List.intercalate ('\n' :: []) kept)
  let c := if pyCount ';' b > 1 then pyStrip (cutAtSemi b) ++ (';' :: []) else b
  String.mk c

/-- Stage named from the spec: "strips markdown code fences". -/
def stripCodeFences (l : List Char) : List Char := subFenceBare (subFenceTag l)

/-- Stage named from the spec: "strips ... comment lines" (removes `--`
comments and drops blank lines, rejoining with newlines). -/
def stripCommentLines (l : List Char) : List Char :=
  List.intercalate ('\n' :: [])
    (((pySplitlines l).map cutAtDashDash).filter (fun line => !(pyStrip line).isEmpty))

/-- Stage named from the spec: "collapses to the first statement when
multiple statements are present (splitting on ';', keeping the first part,
re-appending ';')". -/
def collapseToFirstStatement (l : List Char) : List Char :=
  if pyCount ';' l > 1 then pyStrip (cutAtSemi l) ++ (';' :: []) else l

/-- The spec's sanitize pipeline, assembled from the named stages. -/
def sanitizeStages (s : String) : String :=
  String.mk (collapseToFirstStatement (pyStrip (stripCommentLines (stripCodeFences s.data))))

/-! ### Password masking (`mask_password`) -/

/-- Source: `mask_password` in `utils/security.py`: passwords of length at
most 4 become `"****"`; longer ones keep the first two and last two
characters with the middle replaced by asterisks. -/
def mask_password (p : String) : String :=
  if p.length ≤ 4 then
    String.mk (List.replicate 4 '*')
  else
    String.mk (p.data.take 2 ++ List.replicate (p.length - 4) '*' ++
      p.data.drop (p.length - 2))

/-! ### Schema cache (`get_schema_info`) -/

/-- `timedelta.seconds` of `now - ts` for `ts ≤ now` measured in whole
seconds: the seconds component of the normalized timedelta, i.e. the
elapsed time modulo one day — the days component is discarded. -/
def timedeltaSecondsField (now ts : Nat) : Nat := (now - ts) % 86400

/-- The cache-hit test of `get_schema_info` in `db/schema.py`: not
`force_refresh`, an entry exists for the key, and
`(datetime.utcnow() - cache_time).seconds < SCHEMA_CACHE_TTL` where
`SCHEMA_CACHE_TTL = 300`. -/
def schemaCacheHit (entry : Option Nat) (now : Nat) (force_refresh : Bool) : Bool :=
  !force_refresh &&
    match entry with
    | some ts => decide (timedeltaSecondsField now ts < 300)
    | none => false

/-- Observable outcome of one `get_schema_info` call: whether the cached
snapshot was returned, whether a live introspection ran, and the cache
entry's capture timestamp afterwards.  `introspectOk` abstracts whether
the introspection succeeds; on failure the source returns the
empty-shaped snapshot without touching the cache. -/
structure SchemaFetch where
  fromCache : Bool
  introspected : Bool
  cacheAfter : Option Nat
deriving DecidableEq

/-- Source: `get_schema_info` in `db/schema.py`, with the snapshot data
abstracted away and the cache entry reduced to its capture timestamp. -/
def get_schema_info (entry : Option Nat) (now : Nat) (force_refresh : Bool)
    (introspectOk : Bool) : SchemaFetch :=
  if schemaCacheHit entry now force_refresh then
    { fromCache := true, introspected := false, cacheAfter := entry }
  else if introspectOk then
    { fromCache := false, introspected := true, cacheAfter := some now }
  else
    { fromCache := false, introspected := true, cacheAfter := entry }

/-! ### Query executor (`execute_query_safe`) -/

/-- A result row: an ordered association of column names to values (values
abstracted to integers). -/
abbrev Row := List (String × Int)

/-- What the database statement did: whether it returned rows, the rows, and
the affected-row count. -/
structure StmtResult where
  returns_rows : Bool
  rows : List Row
  rowcount : Int

/-- The two result dictionaries `execute_query_safe` can build: one for
row-returning statements, one for row-less statements.  Both carry
`success: True` in the source; `committed` records whether `conn.commit()`
was called. -/
inductive ExecOutcome where
  | rowsResult (query_type : QueryType) (data : List Row) (row_count : Nat)
      (columns : List String)
  | execResult (query_type : QueryType) (message : String) (rows_affected : Int)
      (committed : Bool)
deriving DecidableEq

/-- Whether the outcome committed. -/
def ExecOutcome.committed : ExecOutcome → Bool
  | .rowsResult _ _ _ _ => false
  | .execResult _ _ _ c => c

/-- Source: `execute_query_safe` in `db/query_executor.py`, success path,
with the connection abstracted to the statement's `StmtResult`.  `none`
models the `IndexError` escaping from `classify_query_type` on a wordless
string (raised before the `try` block). -/
def execute_query_safe (sql : String) (res : StmtResult) : Option ExecOutcome :=
  match classify_query_type sql with
  | none => none
  | some qt =>
    if res.returns_rows then
      some (.rowsResult qt res.rows res.rows.length
        (match res.rows with
         | [] => []
         | r :: _ => r.map Prod.fst))
    else
      some (.execResult qt "Query executed successfully" res.rowcount
        (decide (qt = QueryType.WRITE ∨ qt = QueryType.DDL)))

/-- The commit flag of an executor outcome (`false` when no outcome). -/
def committedOf (o : Option ExecOutcome) : Bool :=
  match o with
  | some x => x.committed
  | none => false

/-! ### Session store (`SessionService` in `services/session_service.py`)

Time is modelled as natural-number seconds; each operation that reads
`datetime.utcnow()` takes the current time as an argument.  The two dicts
`_sessions` and `_chat_histories` are modelled as association lists whose
key sets and per-key values mirror the dicts (Python preserves insertion
order; the claims only concern key sets and per-key values, which the
model preserves exactly). -/

/-- One `conversation_history` entry
(`{"timestamp": ..., "query": ..., "result": ...}`). -/
structure HistEntry where
  timestamp : Nat
  query : String
  result : String
deriving DecidableEq

/-- `models/domain.py` `SessionContext` (fields the store touches;
`schema_context` and `user_expertise` are never read by the store). -/
structure SessionCtx where
  session_id : String
  last_query : Option String
  last_result : Option String
  conversation_history : List HistEntry
  created_at : Nat
  last_activity : Nat
deriving DecidableEq

/-- `models/domain.py` `ChatMessage` (metadata abstracted away). -/
structure ChatMsg where
  role : String
  content : String
  timestamp : Nat
deriving DecidableEq

/-- Dictionary lookup. -/
def alookup {α : Type} (k : String) : List (String × α) → Option α
  | [] => none
  | p :: rest => if p.1 = k then some p.2 else alookup k rest

/-- Dictionary key deletion. -/
def aerase {α : Type} (k : String) : List (String × α) → List (String × α)
  | [] => []
  | p :: rest => if p.1 = k then aerase k rest else p :: aerase k rest

/-- Dictionary assignment `d[k] = v`. -/
def ainsert {α : Type} (k : String) (v : α) (l : List (String × α)) :
    List (String × α) :=
  (k, v) :: aerase k l

/-- The `SessionService` state: `_sessions` and `_chat_histories`. -/
structure Store where
  sessions : List (String × SessionCtx)
  chats : List (String × List ChatMsg)
deriving DecidableEq

/-- A freshly constructed `SessionService` (empty dict, empty defaultdict). -/
def Store.init : Store := { sessions := [], chats := [] }

/-- Python slice `l[-cap:]` for a nonnegative `cap` (note `l[-0:]` is the
whole list). -/
def pyTakeLast {α : Type} (cap : Nat) (l : List α) : List α :=
  if cap = 0 then l else l.drop (l.length - cap)

/-- The source's append-then-truncate step: `l.append(x)` followed by
`if len(l) > cap: l = l[-cap:]`. -/
def cappedAppend {α : Type} (cap : Nat) (l : List α) (x : α) : List α :=
  let l2 := l ++ [x]
  if l2.length > cap then pyTakeLast cap l2 else l2

/-- Store configuration: `settings.max_chat_history` (default 50) and
`settings.session_timeout_minutes` (default 60). -/
structure Config where
  max_chat_history : Nat
  session_timeout_minutes : Nat

/-- The session-store operations (arguments include the reading of
`datetime.utcnow()` where the source takes one). -/
inductive Op where
  | getOrCreate (sid : Option String) (now : Nat)
  | get (sid : String) (now : Nat)
  | updateContext (sid : String) (query result : String) (now : Nat)
  | addMessage (sid role content : String) (now : Nat)
  | getChatHistory (sid : String)
  | delete (sid : String)
  | cleanupExpired (now : Nat)
  | listAll

/-- A new `SessionContext(session_id=new_id)` with dataclass defaults. -/
def newSession (sid : String) (now : Nat) : SessionCtx :=
  { session_id := sid, last_query := none, last_result := none,
    conversation_history := [], created_at := now, last_activity := now }

/-- `SessionService.delete`: remove the id from both dicts. -/
def deleteSession (st : Store) (sid : String) : Store :=
  { sessions := aerase sid st.sessions, chats := aerase sid st.chats }

/-- The generated id `f"session_{datetime.utcnow().timestamp()}"`. -/
def genSessionId (now : Nat) : String := "session_" ++ toString now

/-- Insert a fresh `SessionContext` under `sid`. -/
def createSession (st : Store) (sid : String) (now : Nat) : Store :=
  { st with sessions := ainsert sid (newSession sid now) st.sessions }

/-- The `defaultdict` access `self._chat_histories[session.session_id]` made
by `get_all_sessions` for each session: materialise an empty entry when
the key is absent. -/
def ensureChat (ch : List (String × List ChatMsg)) (p : String × SessionCtx) :
    List (String × List ChatMsg) :=
  match alookup p.1 ch with
  | some _ => ch
  | none => ainsert p.1 [] ch

/-- One `SessionService` method call, acting on the store state
(`services/session_service.py`).  `get_or_create` follows the source's
truthiness test `if session_id and session_id in self._sessions`;
`update_context` is modelled on the session stored under the given id (the
callers always pass a session just fetched from the store) and leaves the
store unchanged when the id is absent, as mutating a detached object
would; `add_message`, `get_chat_history` and `get_all_sessions` reproduce
the `defaultdict(list)` behaviour of materialising empty entries on
access. -/
def applyOp (cfg : Config) (st : Store) : Op → Store
  | .getOrCreate sid now =>
    match sid with
    | some s =>
      if s ≠ "" then
        match alookup s st.sessions with
        | some sess =>
          { st with sessions :=
              ainsert s { sess with last_activity := now } st.sessions }
        | none => createSession st s now
      else
        createSession st (genSessionId now) now
    | none => createSession st (genSessionId now) now
  | .get sid now =>
    match alookup sid st.sessions with
    | some sess =>
      { st with sessions :=
          ainsert sid { sess with last_activity := now } st.sessions }
    | none => st
  | .updateContext sid q r now =>
    match alookup sid st.sessions with
    | some sess =>
      let entry : HistEntry := { timestamp := now, query := q, result := r }
      let sess2 : SessionCtx :=
        { sess with
          last_query := some q,
          last_result := some r,
          conversation_history :=
            cappedAppend 10 sess.conversation_history entry,
          last_activity := now }
      { st with sessions := ainsert sid sess2 st.sessions }
    | none => st
  | .addMessage sid role content now =>
    let cur := (alookup sid st.chats).getD []
    let msg : ChatMsg := { role := role, content := content, timestamp := now }
    { st with chats :=
        ainsert sid (cappedAppend cfg.max_chat_history cur msg) st.chats }
  | .getChatHistory sid =>
    match alookup sid st.chats with
    | some _ => st
    | none => { st with chats := ainsert sid [] st.chats }
  | .delete sid => deleteSession st sid
  | .cleanupExpired now =>
    let cutoff := now - cfg.session_timeout_minutes * 60
    let expired :=
      (st.sessions.filter (fun p => p.2.last_activity < cutoff)).map Prod.fst
    expired.foldl deleteSession st
  | .listAll =>
    { st with chats := st.sessions.foldl ensureChat st.chats }

/-- Run a sequence of session-store operations from a fresh service. -/
def run (cfg : Config) (ops : List Op) : Store :=
  ops.foldl (fun st op => applyOp cfg st op) Store.init

/-- The boundedness invariant of the claim: every session's
`conversation_history` has at most 10 entries, and every chat ring at
most `cap` messages. -/
def ringsBounded (cap : Nat) (st : Store) : Prop :=
  (∀ p ∈ st.sessions, p.2.conversation_history.length ≤ 10) ∧
  (∀ q ∈ st.chats, q.2.length ≤ cap)

/-- The middle region of a password that `mask_password` overwrites with
asterisks: the whole password when it has at most 4 characters, otherwise
everything but the first two and last two characters. -/
def maskedRegion (p : String) : List Char :=
  if p.length ≤ 4 then p.data else (p.data.drop 2).take (p.length - 4)

/-! ## Shared helper lemmas -/

theorem alookup_aerase_self {α : Type} (k : String) :
    ∀ l : List (String × α), alookup k (aerase k l) = none := by
  intro l
  induction l with
  | nil => rfl
  | cons p rest ih =>
    by_cases h : p.1 = k <;> simp [aerase, alookup, h, ih]

theorem alookup_ainsert_self {α : Type} (k : String) (v : α)
    (l : List (String × α)) : alookup k (ainsert k v l) = some v := by
  simp [ainsert, alookup]

theorem append_ne_empty_of_left_ne_empty (a b : String) (ha : a.data ≠ []) :
    a ++ b ≠ "" := by
  intro he
  have h2 := congrArg String.data he
  rw [String.data_append] at h2
  exact ha (List.append_eq_nil.mp h2).1

/-! ## Claim C1 -/

/-- C1: whenever the generated SQL is destructive and `allow_destructive` or
`confirm` is false, `process_natural_query` returns a blocked result that
carries a nonempty message and the SQL, and performs zero
`execute_query_safe` calls.  (When `allow_destructive` is false the block
happens inside `validate_query_safety`; when it is true but `confirm` is
false the caller-side confirm gate blocks — the two distinct checkpoints
of the claim.) -/
theorem destructive_blocked_without_both_flags :
    ∀ (sql : String) (allow confirm : Bool),
      is_destructive_query sql = some true →
      allow = false ∨ confirm = false →
      (process_natural_query sql allow confirm).blocked = true ∧
      (process_natural_query sql allow confirm).executes = 0 ∧
      (process_natural_query sql allow confirm).sql = sql ∧
      (process_natural_query sql allow confirm).message ≠ "" := by
  intro sql allow confirm h hflags
  rcases hs : is_safe_query sql with ⟨b, reason⟩
  cases b
  · have hv : validate_query_safety sql allow =
        Except.error (.queryBlocked ("Query blocked for safety: " ++ reason)
          reason sql) := by
      simp [validate_query_safety, hs]
    refine ⟨?_, ?_, ?_, ?_⟩ <;>
      simp [process_natural_query, hv, errMessage]
    exact append_ne_empty_of_left_ne_empty _ _ (by decide)
  · cases allow
    · have hv : validate_query_safety sql false =
          Except.error (.queryBlocked "Destructive operation blocked"
            "Destructive query not allowed" sql) := by
        simp [validate_query_safety, hs, h]
      refine ⟨?_, ?_, ?_, ?_⟩ <;>
        simp [process_natural_query, hv, errMessage]
    · have hc : confirm = false := by
        rcases hflags with h1 | h1
        · exact absurd h1 (by simp)
        · exact h1
      subst hc
      have hv : validate_query_safety sql true = Except.ok () := by
        simp [validate_query_safety, hs, h]
      refine ⟨?_, ?_, ?_, ?_⟩ <;>
        simp [process_natural_query, hv, h]

/-- C1 (witness): applied to the spec's end-to-end example
`"DROP TABLE users"` with `allow_destructive = false`, `confirm = false`. -/
theorem destructive_blocked_without_both_flags_witness :
    (process_natural_query "DROP TABLE users" false false).blocked = true ∧
    (process_natural_query "DROP TABLE users" false false).executes = 0 ∧
    (process_natural_query "DROP TABLE users" false false).sql = "DROP TABLE users" ∧
    (process_natural_query "DROP TABLE users" false false).message ≠ "" :=
  destructive_blocked_without_both_flags "DROP TABLE users" false false
    (by decide) (Or.inl rfl)

/-! ## Claim C3 -/

/-- C3: `is_safe_query` applies its checks in the claimed order — multiple
semicolons, then comment markers, then `union ... select`, then timing
functions, then the `information_schema` pass-with-warning, then pass —
and decides the three concrete examples as claimed. -/
theorem check_safety_order_and_examples :
    (∀ sql : String,
      1 < pyCount ';' (pyStrip (pyLower sql.data)) →
      is_safe_query sql =
        (false, "Multiple statements detected - potential SQL injection")) ∧
    (∀ sql : String,
      ¬ 1 < pyCount ';' (pyStrip (pyLower sql.data)) →
      (containsSub sql.data ("--".data) || containsSub sql.data ("/*".data) ||
        containsSub sql.data ("*/".data)) = true →
      is_safe_query sql =
        (false, "SQL comments detected - potential injection attempt")) ∧
    (∀ sql : String,
      ¬ 1 < pyCount ';' (pyStrip (pyLower sql.data)) →
      (containsSub sql.data ("--".data) || containsSub sql.data ("/*".data) ||
        containsSub sql.data ("*/".data)) = false →
      unionSelectMatch (pyStrip (pyLower sql.data)) = true →
      is_safe_query sql = (false, "UNION SELECT detected - potential injection")) ∧
    (∀ sql : String,
      ¬ 1 < pyCount ';' (pyStrip (pyLower sql.data)) →
      (containsSub sql.data ("--".data) || containsSub sql.data ("/*".data) ||
        containsSub sql.data ("*/".data)) = false →
      unionSelectMatch (pyStrip (pyLower sql.data)) = false →
      timingAttackMatch (pyStrip (pyLower sql.data)) = true →
      is_safe_query sql = (false, "Timing attack functions detected")) ∧
    (∀ sql : String,
      ¬ 1 < pyCount ';' (pyStrip (pyLower sql.data)) →
      (containsSub sql.data ("--".data) || containsSub sql.data ("/*".data) ||
        containsSub sql.data ("*/".data)) = false →
      unionSelectMatch (pyStrip (pyLower sql.data)) = false →
      timingAttackMatch (pyStrip (pyLower sql.data)) = false →
      containsSub (pyStrip (pyLower sql.data)) ("information_schema".data) = true →
      is_safe_query sql =
        (true, "Information schema access detected (allowed with warning)")) ∧
    (∀ sql : String,
      ¬ 1 < pyCount ';' (pyStrip (pyLower sql.data)) →
      (containsSub sql.data ("--".data) || containsSub sql.data ("/*".data) ||
        containsSub sql.data ("*/".data)) = false →
      unionSelectMatch (pyStrip (pyLower sql.data)) = false →
      timingAttackMatch (pyStrip (pyLower sql.data)) = false →
      containsSub (pyStrip (pyLower sql.data)) ("information_schema".data) = false →
      is_safe_query sql = (true, "Query appears safe")) ∧
    is_safe_query "SELECT * FROM a; DROP TABLE b;" =
      (false, "Multiple statements detected - potential SQL injection") ∧
    is_safe_query "SELECT * FROM a -- comment" =
      (false, "SQL comments detected - potential injection attempt") ∧
    is_safe_query "SELECT * FROM users WHERE id=1" = (true, "Query appears safe") := by
  refine ⟨?_, ?_, ?_, ?_, ?_, ?_, by decide, by decide, by decide⟩
  · intro sql h1
    simp [is_safe_query, h1]
  · intro sql h1 h2
    simp [is_safe_query, h1, h2]
  · intro sql h1 h2 h3
    simp [is_safe_query, h1, h2, h3]
  · intro sql h1 h2 h3 h4
    simp [is_safe_query, h1, h2, h3, h4]
  · intro sql h1 h2 h3 h4 h5
    simp [is_safe_query, h1, h2, h3, h4, h5]
  · intro sql h1 h2 h3 h4 h5
    simp [is_safe_query, h1, h2, h3, h4, h5]

/-- C3 (witness): the multiple-statement rejection branch applied to the
claim's first example. -/
theorem check_safety_order_witness :
    is_safe_query "SELECT * FROM a; DROP TABLE b;" =
      (false, "Multiple statements detected - potential SQL injection") :=
  check_safety_order_and_examples.1 "SELECT * FROM a; DROP TABLE b;" (by decide)

/-! ## Claim C9 -/

/-- C9: a row-returning statement yields `{success, query_kind, rows,
row_count = number of rows, columns = keys of the first row or []}`; a
row-less statement yields `{success, query_kind, message, rows_affected}`
and commits exactly when the classified kind is WRITE or DDL; and the
`"SELECT 1"` example produces READ, one row, columns `["1"]`. -/
theorem executor_outcome_shape :
    (∀ (sql : String) (qt : QueryType) (res : StmtResult),
      classify_query_type sql = some qt →
      res.returns_rows = true →
      execute_query_safe sql res =
        some (.rowsResult qt res.rows res.rows.length
          (match res.rows with
           | [] => []
           | r :: _ => r.map Prod.fst))) ∧
    (∀ (sql : String) (qt : QueryType) (res : StmtResult),
      classify_query_type sql = some qt →
      res.returns_rows = false →
      execute_query_safe sql res =
        some (.execResult qt "Query executed successfully" res.rowcount
          (decide (qt = QueryType.WRITE ∨ qt = QueryType.DDL))) ∧
      (committedOf (execute_query_safe sql res) = true ↔
        (qt = QueryType.WRITE ∨ qt = QueryType.DDL))) ∧
    execute_query_safe "SELECT 1"
        { returns_rows := true, rows := [[("1", 1)]], rowcount := -1 } =
      some (.rowsResult .READ [[("1", 1)]] 1 ["1"]) := by
  refine ⟨?_, ?_, by decide⟩
  · intro sql qt res hq hr
    simp [execute_query_safe, hq, hr]
  · intro sql qt res hq hr
    constructor
    · simp [execute_query_safe, hq, hr]
    · simp [execute_query_safe, hq, hr, committedOf, ExecOutcome.committed]

/-- C9 (witness): the row-returning branch applied to the `"SELECT 1"` stub
executor example. -/
theorem executor_outcome_shape_witness :
    execute_query_safe "SELECT 1"
        { returns_rows := true, rows := [[("1", 1)]], rowcount := -1 } =
      some (.rowsResult .READ [[("1", 1)]] 1 ["1"]) :=
  executor_outcome_shape.1 "SELECT 1" .READ
    { returns_rows := true, rows := [[("1", 1)]], rowcount := -1 } (by decide) rfl

/-! ## Claim C5 -/

theorem dropWhile_shape {α : Type} (p : α → Bool) :
    ∀ l : List α, l.dropWhile p = [] ∨
      ∃ x xs, l.dropWhile p = x :: xs ∧ p x = false := by
  intro l
  induction l with
  | nil => exact Or.inl rfl
  | cons a l ih =>
    rw [List.dropWhile_cons]
    split
    · exact ih
    · next h => exact Or.inr ⟨a, l, rfl, by simpa using h⟩

theorem dropWhile_cons_of_head_false {α : Type} (p : α → Bool) (x : α)
    (xs : List α) (h : p x = false) : (x :: xs).dropWhile p = x :: xs := by
  rw [List.dropWhile_cons, h]
  simp

theorem dropWhile_head_false {α : Type} (p : α → Bool) (l : List α) (c : α)
    (h : (l.dropWhile p).head? = some c) : p c = false := by
  rcases dropWhile_shape p l with h0 | ⟨x, xs, hx, hpx⟩
  · rw [h0] at h
    cases h
  · rw [hx] at h
    simp only [List.head?_cons, Option.some.injEq] at h
    rw [← h]
    exact hpx

theorem getLast?_dropWhile {α : Type} (p : α → Bool) :
    ∀ l : List α, l.dropWhile p = [] ∨ (l.dropWhile p).getLast? = l.getLast? := by
  intro l
  induction l with
  | nil => exact Or.inl rfl
  | cons a l ih =>
    rw [List.dropWhile_cons]
    split
    · rcases ih with h | h
      · exact Or.inl h
      · cases l with
        | nil => exact Or.inl rfl
        | cons b m =>
          right
          rw [h, List.getLast?_cons_cons]
    · exact Or.inr rfl

/-- A list neither starting nor ending with Python whitespace. -/
def noSpaceEnds (l : List Char) : Prop :=
  (∀ c, l.head? = some c → pyIsSpace c = false) ∧
  (∀ c, l.getLast? = some c → pyIsSpace c = false)

theorem noSpaceEnds_pyStrip (l : List Char) : noSpaceEnds (pyStrip l) := by
  constructor
  · intro c h
    rw [pyStrip, List.head?_reverse] at h
    rcases getLast?_dropWhile pyIsSpace (dropLeadingSpace l).reverse with h0 | h1
    · rw [h0] at h
      cases h
    · rw [h1, List.getLast?_reverse] at h
      exact dropWhile_head_false pyIsSpace l c h
  · intro c h
    rw [pyStrip, List.getLast?_reverse] at h
    exact dropWhile_head_false pyIsSpace (dropLeadingSpace l).reverse c h

theorem pyStrip_eq_self (l : List Char) (h : noSpaceEnds l) : pyStrip l = l := by
  have h1 : dropLeadingSpace l = l := by
    cases l with
    | nil => rfl
    | cons x xs =>
      exact dropWhile_cons_of_head_false pyIsSpace x xs (h.1 x rfl)
  have h2 : l.reverse.dropWhile pyIsSpace = l.reverse := by
    cases hr : l.reverse with
    | nil => rfl
    | cons y ys =>
      have hy : l.getLast? = some y := by
        rw [← List.head?_reverse, hr]
        rfl
      exact hr ▸ dropWhile_cons_of_head_false pyIsSpace y ys (h.2 y hy)
  rw [pyStrip, h1, h2, List.reverse_reverse]

theorem pyStrip_idem (l : List Char) : pyStrip (pyStrip l) = pyStrip l :=
  pyStrip_eq_self _ (noSpaceEnds_pyStrip l)

theorem noSpaceEnds_strip_semi (l : List Char) :
    noSpaceEnds (pyStrip l ++ (';' :: [])) := by
  constructor
  · intro c h
    cases hs : pyStrip l with
    | nil =>
      rw [hs] at h
      simp only [List.nil_append, List.head?_cons, Option.some.injEq] at h
      rw [← h]
      decide
    | cons x xs =>
      rw [hs] at h
      simp only [List.cons_append, List.head?_cons, Option.some.injEq] at h
      rw [← h]
      exact (noSpaceEnds_pyStrip l).1 x (by rw [hs]; rfl)
  · intro c h
    rw [List.getLast?_concat] at h
    simp only [Option.some.injEq] at h
    rw [← h]
    decide

theorem pyStrip_collapse_fixed (b : List Char) (hb : pyStrip b = b) :
    pyStrip (collapseToFirstStatement b) = collapseToFirstStatement b := by
  unfold collapseToFirstStatement
  split
  · exact pyStrip_eq_self _ (noSpaceEnds_strip_semi _)
  · exact hb

/-- C5: the sanitizer yields exactly `"SELECT 1;"` on the fenced example;
it is the composition of the claim's stages — strip markdown code fences,
strip `--`-comment text and blank lines, trim, collapse to the first
statement re-appending `;` when more than one is present; and its output
always carries no surrounding whitespace (trimming). -/
theorem sanitize_pipeline :
    sanitize_sql "```sql\nSELECT 1;\n```" = "SELECT 1;" ∧
    (∀ s : String, sanitize_sql s =
      String.mk (collapseToFirstStatement
        (pyStrip (stripCommentLines (stripCodeFences s.data))))) ∧
    (∀ s : String, sanitize_sql s = sanitizeStages s) ∧
    (∀ s : String, pyStrip (sanitize_sql s).data = (sanitize_sql s).data) := by
  have h2 : ∀ s : String, sanitize_sql s =
      String.mk (collapseToFirstStatement
        (pyStrip (stripCommentLines (stripCodeFences s.data)))) := fun s => rfl
  have hmk : ∀ l : List Char, (String.mk l).data = l := fun _ => rfl
  refine ⟨by decide, h2, fun s => rfl, fun s => ?_⟩
  rw [h2 s, hmk]
  exact pyStrip_collapse_fixed _ (pyStrip_idem _)

/-! ## Claim C2 -/

/-- C2 (counterexample): the claim asserts `classify` is total on every SQL
string including the empty and all-whitespace strings, but
`classify_query_type ""` evaluates `"".strip().lower().split()[0]` and
raises `IndexError` (modelled as `none`), returning none of READ, WRITE,
DDL, DCL. -/
theorem classify_raises_on_empty_string : classify_query_type "" = none := by
  decide

/-- C2 (amended): for every SQL string with at least one non-whitespace
character — i.e. whose first word exists — `classify_query_type` is total
and agrees with the spec's case-insensitive keyword-set classification
(READ / WRITE / DDL / DCL lookup with READ as the default); on a wordless
string it instead raises `IndexError`. -/
theorem classify_total_on_worded_input :
    ∀ (sql w : String), pyFirstWord sql = some w →
      classify_query_type sql = some (classifyKeywordSpec w) := by
  intro sql w h
  simp only [classify_query_type, classifyKeywordSpec, h]
  by_cases hd : w ∈ DDL_KEYWORDS
  · have hr : w ∉ READ_KEYWORDS := by
      simp only [DDL_KEYWORDS, List.mem_cons, List.not_mem_nil, or_false] at hd
      rcases hd with rfl | rfl | rfl | rfl | rfl <;> decide
    have hm : w ∉ DML_KEYWORDS := by
      simp only [DDL_KEYWORDS, List.mem_cons, List.not_mem_nil, or_false] at hd
      rcases hd with rfl | rfl | rfl | rfl | rfl <;> decide
    simp [hd, hr, hm]
  · by_cases hm : w ∈ DML_KEYWORDS
    · have hr : w ∉ READ_KEYWORDS := by
        simp only [DML_KEYWORDS, List.mem_cons, List.not_mem_nil, or_false] at hm
        rcases hm with rfl | rfl | rfl | rfl <;> decide
      simp [hd, hm, hr]
    · by_cases hr : w ∈ READ_KEYWORDS
      · simp [hd, hm, hr]
      · by_cases hc : w ∈ DCL_KEYWORDS <;> simp [hd, hm, hr, hc]

/-- C2 (witness): the amended classification theorem applied to
`"DROP TABLE users"`. -/
theorem classify_total_on_worded_input_witness :
    classify_query_type "DROP TABLE users" = some (classifyKeywordSpec "drop") :=
  classify_total_on_worded_input "DROP TABLE users" "drop" (by decide)

/-! ## Claim C4 -/

/-- C4 (counterexample): the claim says `UnsafeQueryError` is the only
exception `enforce` ever raises, but on an all-whitespace input
`validate_query_safety` passes the safety check and then raises
`IndexError` (not `UnsafeQueryError`) inside `is_destructive_query`. -/
theorem enforce_index_error_on_blank :
    validate_query_safety " " false = Except.error ValidationError.indexErr := rfl

/-- C4 (amended): for every SQL string whose leading keyword is destructive,
`validate_query_safety` with `allow_destructive = false` raises
`UnsafeQueryError` regardless of the `is_safe_query` outcome; moreover on
every input that has a leading word at all — destructive or not (the
second conjunct quantifies over any `is_destructive_query` outcome
`some d`) — every exception the function raises, for either flag value,
is an `UnsafeQueryError`: the `IndexError` case needs a wordless input. -/
theorem enforce_blocks_destructive :
    (∀ sql : String, is_destructive_query sql = some true →
      ∃ m r, validate_query_safety sql false =
        Except.error (ValidationError.queryBlocked m r sql)) ∧
    (∀ (sql : String) (d : Bool), is_destructive_query sql = some d →
      ∀ (allow : Bool) (e : ValidationError),
        validate_query_safety sql allow = Except.error e →
        ∃ m r s, e = ValidationError.queryBlocked m r s) := by
  constructor
  · intro sql h
    rcases hs : is_safe_query sql with ⟨b, reason⟩
    cases b
    · refine ⟨"Query blocked for safety: " ++ reason, reason, ?_⟩
      simp [validate_query_safety, hs]
    · refine ⟨"Destructive operation blocked", "Destructive query not allowed", ?_⟩
      simp [validate_query_safety, hs, h]
  · intro sql d h allow e he
    rcases hs : is_safe_query sql with ⟨b, reason⟩
    cases b
    · simp [validate_query_safety, hs] at he
      exact ⟨_, _, _, he.symm⟩
    · cases d
      · simp [validate_query_safety, hs, h] at he
      · cases allow
        · simp [validate_query_safety, hs, h] at he
          exact ⟨_, _, _, he.symm⟩
        · simp [validate_query_safety, hs, h] at he

/-- C4 (witness): the destructive-blocking part applied to `"DROP TABLE t"`
with `allow_destructive = false`, and the only-exception part applied to
the worded, non-destructive, rejected input `"SELECT sleep(5)"`. -/
theorem enforce_blocks_destructive_witness :
    (∃ m r, validate_query_safety "DROP TABLE t" false =
      Except.error (ValidationError.queryBlocked m r "DROP TABLE t")) ∧
    (∃ m r s, ValidationError.queryBlocked
        "Query blocked for safety: Timing attack functions detected"
        "Timing attack functions detected" "SELECT sleep(5)" =
      ValidationError.queryBlocked m r s) :=
  ⟨enforce_blocks_destructive.1 "DROP TABLE t" (by decide),
   enforce_blocks_destructive.2 "SELECT sleep(5)" false (by decide) false _ rfl⟩

/-! ## Claim C7 -/

/-- C7 (code bug): the source compares `timedelta.seconds` — the seconds
component of the elapsed time, which discards whole days — against the
300-second TTL, instead of the total elapsed seconds.  A cache entry
captured exactly one day (86400 s) before the call is therefore served
from cache with no introspection, even though the elapsed time is far
beyond the TTL the claim (and the source's own `SCHEMA_CACHE_TTL = 300
# 5 minutes` constant) prescribes. -/
theorem schema_cache_ttl_ignores_days :
    get_schema_info (some 0) 86400 false true =
      { fromCache := true, introspected := false, cacheAfter := some 0 } ∧
    ¬(86400 - 0 < 300) := by decide

/-! ## Claim C8 -/

/-- C8 (counterexample): a single `get_or_create("s1")` on a fresh service
creates a `SessionContext` but no chat-history entry, so the set of
session ids in the session map differs from the set in the chat-history
map, refuting the created-together half of the invariant. -/
theorem session_created_without_chat_ring :
    (alookup "s1" (run { max_chat_history := 50, session_timeout_minutes := 60 }
      [.getOrCreate (some "s1") 0]).sessions).isSome = true ∧
    alookup "s1" (run { max_chat_history := 50, session_timeout_minutes := 60 }
      [.getOrCreate (some "s1") 0]).chats = none := by decide

/-- C8 (amended): sessions and chat rings are destroyed together — `delete`
removes the id from both maps in one step — but they are not created
together: `get_or_create` inserts only into the session map, and
`add_message` materialises a chat ring (via the `defaultdict`) even when
no session with that id exists. -/
theorem session_destroyed_with_chat_ring :
    (∀ (cfg : Config) (st : Store) (sid : String),
      alookup sid (applyOp cfg st (.delete sid)).sessions = none ∧
      alookup sid (applyOp cfg st (.delete sid)).chats = none) ∧
    (∀ (cfg : Config) (sid role content : String) (now : Nat),
      alookup sid (applyOp cfg Store.init (.addMessage sid role content now)).sessions
        = none ∧
      (alookup sid (applyOp cfg Store.init (.addMessage sid role content now)).chats).isSome
        = true) := by
  constructor
  · intro cfg st sid
    exact ⟨alookup_aerase_self sid st.sessions, alookup_aerase_self sid st.chats⟩
  · intro cfg sid role content now
    constructor
    · rfl
    · simp [applyOp, Store.init, alookup_ainsert_self]

/-! ## Claim C10 -/

/-- C10 (counterexample): the claim says the mask is always a string
different from the password itself, but `"****"` is a fixed point of
`mask_password` (and so is any long password whose middle is already all
asterisks). -/
theorem mask_password_fixed_point : mask_password "****" = "****" := by decide

/-- C10 (amended): `mask_password` replaces the masked region (the whole
password at length ≤ 4, otherwise everything but the first two and last
two characters) with asterisks, so it never reveals that region; the
result differs from the password whenever the masked region contains any
non-asterisk character, and it equals the password exactly when the
password is `"****"` itself or is longer than 4 characters with a masked
region already consisting only of asterisks. -/
theorem mask_password_never_reveals_middle :
    (∀ p : String, p.length ≤ 4 →
      mask_password p = String.mk (List.replicate 4 '*')) ∧
    (∀ p : String, 4 < p.length →
      (mask_password p).data =
        p.data.take 2 ++ List.replicate (p.length - 4) '*' ++
          p.data.drop (p.length - 2)) ∧
    (∀ p : String, (∃ c ∈ maskedRegion p, c ≠ '*') → mask_password p ≠ p) ∧
    (∀ p : String, mask_password p = p ↔
      (p = String.mk (List.replicate 4 '*') ∨
        (4 < p.length ∧ ∀ c ∈ maskedRegion p, c = '*'))) := by
  have hshort : ∀ p : String, p.length ≤ 4 →
      mask_password p = String.mk (List.replicate 4 '*') := by
    intro p hp
    simp [mask_password, hp]
  have hmid_eq : ∀ p : String, ¬ p.length ≤ 4 → mask_password p = p →
      List.replicate (p.length - 4) '*' = (p.data.drop 2).take (p.length - 4) := by
    intro p hp heq
    have hdata := congrArg String.data heq
    unfold mask_password at hdata
    rw [if_neg hp] at hdata
    have hflat : p.data.take 2 ++ (List.replicate (p.length - 4) '*' ++
        p.data.drop (p.length - 2)) = p.data := by
      rw [← List.append_assoc]
      exact hdata
    have hsplit : (p.data.drop 2).take (p.length - 4) ++
        p.data.drop (2 + (p.length - 4)) = p.data.drop 2 :=
      List.drop_take_append_drop p.data 2 (p.length - 4)
    have hlen : p.data.length = p.length := rfl
    have h24 : 2 + (p.length - 4) = p.length - 2 := by omega
    rw [h24] at hsplit
    have hdecomp : p.data.take 2 ++ ((p.data.drop 2).take (p.length - 4) ++
        p.data.drop (p.length - 2)) = p.data := by
      rw [hsplit]
      exact List.take_append_drop 2 p.data
    have hcanc := List.append_cancel_left (hflat.trans hdecomp.symm)
    exact List.append_cancel_right hcanc
  have hne : ∀ p : String, (∃ c ∈ maskedRegion p, c ≠ '*') →
      mask_password p ≠ p := by
    intro p hc heq
    rcases hc with ⟨c, hmem, hcne⟩
    apply hcne
    by_cases hp : p.length ≤ 4
    · have hdata := congrArg String.data heq
      unfold mask_password at hdata
      rw [if_pos hp] at hdata
      have hrep : List.replicate 4 '*' = p.data := hdata
      have hm2 : c ∈ List.replicate 4 '*' := by
        rw [hrep]
        simpa [maskedRegion, hp] using hmem
      exact List.eq_of_mem_replicate hm2
    · have hmid := hmid_eq p hp heq
      have hm2 : c ∈ List.replicate (p.length - 4) '*' := by
        rw [hmid]
        simpa [maskedRegion, hp] using hmem
      exact List.eq_of_mem_replicate hm2
  refine ⟨hshort, ?_, hne, ?_⟩
  · intro p hp
    simp [mask_password, Nat.not_le.mpr hp]
  · intro p
    constructor
    · intro heq
      by_cases hp : p.length ≤ 4
      · exact Or.inl ((hshort p hp).symm.trans heq).symm
      · refine Or.inr ⟨Nat.not_le.mp hp, ?_⟩
        intro c hmem
        have hmid := hmid_eq p hp heq
        have hm2 : c ∈ List.replicate (p.length - 4) '*' := by
          rw [hmid]
          simpa [maskedRegion, hp] using hmem
        exact List.eq_of_mem_replicate hm2
    · intro hcase
      rcases hcase with hstar | ⟨hgt, hall⟩
      · rw [hstar]
        decide
      · have hp : ¬ p.length ≤ 4 := Nat.not_le.mpr hgt
        have hlen : p.data.length = p.length := rfl
        have hmidlen : ((p.data.drop 2).take (p.length - 4)).length =
            p.length - 4 := by
          rw [List.length_take, List.length_drop, hlen]
          omega
        have hall2 : ∀ c ∈ (p.data.drop 2).take (p.length - 4), c = '*' := by
          intro c hc
          exact hall c (by simpa [maskedRegion, hp] using hc)
        have hmid : (p.data.drop 2).take (p.length - 4) =
            List.replicate (p.length - 4) '*' :=
          List.eq_replicate_iff.mpr ⟨hmidlen, hall2⟩
        have hsplit : (p.data.drop 2).take (p.length - 4) ++
            p.data.drop (2 + (p.length - 4)) = p.data.drop 2 :=
          List.drop_take_append_drop p.data 2 (p.length - 4)
        have h24 : 2 + (p.length - 4) = p.length - 2 := by omega
        rw [h24] at hsplit
        have hdata : p.data.take 2 ++ List.replicate (p.length - 4) '*' ++
            p.data.drop (p.length - 2) = p.data := by
          rw [List.append_assoc, ← hmid, hsplit]
          exact List.take_append_drop 2 p.data
        calc mask_password p
            = String.mk (p.data.take 2 ++ List.replicate (p.length - 4) '*' ++
                p.data.drop (p.length - 2)) := by
              simp [mask_password, hp]
          _ = String.mk p.data := congrArg String.mk hdata
          _ = p := rfl

/-- C10 (witness): the difference direction applied to `"pw12345"` (middle
contains non-asterisks), and the equality characterization applied to
`"ab****cd"` (middle already all asterisks), both discharging their
hypotheses concretely. -/
theorem mask_password_never_reveals_middle_witness :
    mask_password "pw12345" ≠ "pw12345" ∧ mask_password "ab****cd" = "ab****cd" :=
  ⟨mask_password_never_reveals_middle.2.2.1 "pw12345" ⟨'1', by decide, by decide⟩,
   (mask_password_never_reveals_middle.2.2.2 "ab****cd").mpr
     (Or.inr ⟨by decide, by decide⟩)⟩

/-! ## Claim C6 -/

theorem mem_aerase {α : Type} (k : String) (p : String × α) :
    ∀ l : List (String × α), p ∈ aerase k l → p ∈ l := by
  intro l
  induction l with
  | nil => exact fun h => h
  | cons q rest ih =>
    intro h
    by_cases hq : q.1 = k
    · simp only [aerase, if_pos hq] at h
      exact List.mem_cons_of_mem q (ih h)
    · simp only [aerase, if_neg hq] at h
      rcases List.mem_cons.mp h with h1 | h1
      · exact h1 ▸ List.mem_cons_self q rest
      · exact List.mem_cons_of_mem q (ih h1)

theorem mem_ainsert {α : Type} (k : String) (v : α) (l : List (String × α))
    (p : String × α) (h : p ∈ ainsert k v l) : p = (k, v) ∨ p ∈ l := by
  simp only [ainsert] at h
  rcases List.mem_cons.mp h with h1 | h1
  · exact Or.inl h1
  · exact Or.inr (mem_aerase k p l h1)

theorem alookup_mem {α : Type} (k : String) (v : α) :
    ∀ l : List (String × α), alookup k l = some v → (k, v) ∈ l := by
  intro l
  induction l with
  | nil => intro h; cases h
  | cons q rest ih =>
    obtain ⟨q1, q2⟩ := q
    intro h
    by_cases hq : q1 = k
    · simp only [alookup, if_pos hq] at h
      have hv : v = q2 := (Option.some.inj h).symm
      subst hv
      rw [← hq]
      exact List.mem_cons_self _ _
    · simp only [alookup, if_neg hq] at h
      exact List.mem_cons_of_mem _ (ih h)

theorem cappedAppend_length_le {α : Type} (cap : Nat) (hcap : 0 < cap)
    (l : List α) (x : α) : (cappedAppend cap l x).length ≤ cap := by
  have hne : cap ≠ 0 := Nat.pos_iff_ne_zero.mp hcap
  simp only [cappedAppend, pyTakeLast, if_neg hne]
  split
  · rw [List.length_drop]
    omega
  · next h =>
    simp only [gt_iff_lt, Nat.not_lt] at h
    exact h

/-- The FIFO step of the source's truncation: appending to a full ring drops
exactly the oldest entry and keeps the rest in order. -/
theorem cappedAppend_fifo {α : Type} (cap : Nat) (hcap : 0 < cap) (l : List α)
    (x : α) (hlen : l.length = cap) :
    cappedAppend cap l x = l.drop 1 ++ [x] := by
  have hne : cap ≠ 0 := Nat.pos_iff_ne_zero.mp hcap
  have hgt : (l ++ [x]).length > cap := by
    simp [List.length_append, hlen]
  simp only [cappedAppend, pyTakeLast, if_pos hgt, if_neg hne]
  have h1 : (l ++ [x]).length - cap = 1 := by
    simp [List.length_append, hlen]
  rw [h1]
  exact List.drop_append_of_le_length (by omega)

theorem ringsBounded_deleteSession (cap : Nat) (st : Store) (sid : String)
    (h : ringsBounded cap st) : ringsBounded cap (deleteSession st sid) :=
  ⟨fun p hp => h.1 p (mem_aerase sid p st.sessions hp),
   fun q hq => h.2 q (mem_aerase sid q st.chats hq)⟩

theorem ringsBounded_foldl_delete (cap : Nat) :
    ∀ (ids : List String) (st : Store), ringsBounded cap st →
      ringsBounded cap (ids.foldl deleteSession st) := by
  intro ids
  induction ids with
  | nil => exact fun st h => h
  | cons i rest ih => exact fun st h => ih _ (ringsBounded_deleteSession cap st i h)

theorem chats_bounded_foldl_ensure (cap : Nat) :
    ∀ (sess : List (String × SessionCtx)) (ch : List (String × List ChatMsg)),
      (∀ q ∈ ch, q.2.length ≤ cap) →
      ∀ q ∈ sess.foldl ensureChat ch, q.2.length ≤ cap := by
  intro sess
  induction sess with
  | nil => exact fun ch h => h
  | cons p rest ih =>
    intro ch h
    apply ih
    intro q hq
    cases ha : alookup p.1 ch with
    | some v =>
      simp only [ensureChat, ha] at hq
      exact h q hq
    | none =>
      simp only [ensureChat, ha] at hq
      rcases mem_ainsert _ _ _ q hq with h1 | h1
      · rw [h1]
        simp
      · exact h q h1

theorem ringsBounded_applyOp (cfg : Config) (hcap : 0 < cfg.max_chat_history)
    (st : Store) (op : Op) (h : ringsBounded cfg.max_chat_history st) :
    ringsBounded cfg.max_chat_history (applyOp cfg st op) := by
  obtain ⟨hs, hc⟩ := h
  cases op with
  | getOrCreate sid now =>
    cases sid with
    | none =>
      refine ⟨?_, hc⟩
      intro p hp
      rcases mem_ainsert _ _ _ p hp with h1 | h1
      · rw [h1]
        simp [newSession]
      · exact hs p h1
    | some s =>
      by_cases hne : s ≠ ""
      · cases hl : alookup s st.sessions with
        | some sess =>
          have hmem := alookup_mem s sess st.sessions hl
          simp only [applyOp, if_pos hne, hl]
          refine ⟨?_, hc⟩
          intro p hp
          rcases mem_ainsert _ _ _ p hp with h1 | h1
          · rw [h1]
            exact hs (s, sess) hmem
          · exact hs p h1
        | none =>
          simp only [applyOp, if_pos hne, hl, createSession]
          refine ⟨?_, hc⟩
          intro p hp
          rcases mem_ainsert _ _ _ p hp with h1 | h1
          · rw [h1]
            simp [newSession]
          · exact hs p h1
      · simp only [applyOp, if_neg hne, createSession]
        refine ⟨?_, hc⟩
        intro p hp
        rcases mem_ainsert _ _ _ p hp with h1 | h1
        · rw [h1]
          simp [newSession]
        · exact hs p h1
  | get sid now =>
    cases hl : alookup sid st.sessions with
    | some sess =>
      have hmem := alookup_mem sid sess st.sessions hl
      simp only [applyOp, hl]
      refine ⟨?_, hc⟩
      intro p hp
      rcases mem_ainsert _ _ _ p hp with h1 | h1
      · rw [h1]
        exact hs (sid, sess) hmem
      · exact hs p h1
    | none =>
      simp only [applyOp, hl]
      exact ⟨hs, hc⟩
  | updateContext sid q r now =>
    cases hl : alookup sid st.sessions with
    | some sess =>
      simp only [applyOp, hl]
      refine ⟨?_, hc⟩
      intro p hp
      rcases mem_ainsert _ _ _ p hp with h1 | h1
      · rw [h1]
        exact cappedAppend_length_le 10 (by decide) _ _
      · exact hs p h1
    | none =>
      simp only [applyOp, hl]
      exact ⟨hs, hc⟩
  | addMessage sid role content now =>
    simp only [applyOp]
    refine ⟨hs, ?_⟩
    intro p hp
    rcases mem_ainsert _ _ _ p hp with h1 | h1
    · rw [h1]
      exact cappedAppend_length_le cfg.max_chat_history hcap _ _
    · exact hc p h1
  | getChatHistory sid =>
    cases hl : alookup sid st.chats with
    | some v =>
      simp only [applyOp, hl]
      exact ⟨hs, hc⟩
    | none =>
      simp only [applyOp, hl]
      refine ⟨hs, ?_⟩
      intro p hp
      rcases mem_ainsert _ _ _ p hp with h1 | h1
      · rw [h1]
        simp
      · exact hc p h1
  | delete sid => exact ringsBounded_deleteSession _ st sid ⟨hs, hc⟩
  | cleanupExpired now =>
    exact ringsBounded_foldl_delete _ _ st ⟨hs, hc⟩
  | listAll =>
    exact ⟨hs, chats_bounded_foldl_ensure _ st.sessions st.chats hc⟩

theorem ringsBounded_run (cfg : Config) (hcap : 0 < cfg.max_chat_history)
    (ops : List Op) : ringsBounded cfg.max_chat_history (run cfg ops) := by
  have hgen : ∀ (l : List Op) (st : Store), ringsBounded cfg.max_chat_history st →
      ringsBounded cfg.max_chat_history
        (l.foldl (fun st op => applyOp cfg st op) st) := by
    intro l
    induction l with
    | nil => exact fun st h => h
    | cons op rest ih =>
      exact fun st h => ih _ (ringsBounded_applyOp cfg hcap st op h)
  exact hgen ops Store.init ⟨fun p hp => absurd hp (List.not_mem_nil p),
    fun q hq => absurd hq (List.not_mem_nil q)⟩

/-- C6: after any sequence of session-store operations from a fresh service,
every session's `conversation_history` has at most 10 entries and every
chat ring at most the configured maximum (positive, default 50); and when
an append would exceed a cap, the truncation drops exactly the oldest
entry, keeping the most recent `cap` items in order (FIFO), for both the
chat ring and the conversation history. -/
theorem session_rings_bounded_and_fifo :
    (∀ (cfg : Config) (ops : List Op), 0 < cfg.max_chat_history →
      ringsBounded cfg.max_chat_history (run cfg ops)) ∧
    (∀ (cap : Nat) (l : List ChatMsg) (x : ChatMsg), 0 < cap → l.length = cap →
      cappedAppend cap l x = l.drop 1 ++ [x]) ∧
    (∀ (cap : Nat) (l : List HistEntry) (x : HistEntry), 0 < cap → l.length = cap →
      cappedAppend cap l x = l.drop 1 ++ [x]) :=
  ⟨fun cfg ops hcap => ringsBounded_run cfg hcap ops,
   fun cap l x hcap hlen => cappedAppend_fifo cap hcap l x hlen,
   fun cap l x hcap hlen => cappedAppend_fifo cap hcap l x hlen⟩

/-- C6 (witness): the invariant applied to a concrete run that overflows a
chat ring of capacity 2, and the FIFO step applied to a full ring. -/
theorem session_rings_bounded_and_fifo_witness :
    ringsBounded 2 (run { max_chat_history := 2, session_timeout_minutes := 60 }
      [.getOrCreate (some "s1") 0, .addMessage "s1" "u" "a" 1,
       .addMessage "s1" "u" "b" 2, .addMessage "s1" "u" "c" 3]) ∧
    cappedAppend 2 [(⟨"u", "a", 1⟩ : ChatMsg), ⟨"u", "b", 2⟩]
      (⟨"u", "c", 3⟩ : ChatMsg) = [⟨"u", "b", 2⟩, ⟨"u", "c", 3⟩] :=
  ⟨session_rings_bounded_and_fifo.1
      { max_chat_history := 2, session_timeout_minutes := 60 } _ (by decide),
   (session_rings_bounded_and_fifo.2.1 2 _ _ (by decide) (by decide)).trans
      (by decide)⟩

end VoxDB
